import Mathlib

/-!
Shallow embedding of the TCP segment core from
`src/connectivity/network/netstack3/core/base/src/tcp/segment.rs`.

Machine integers are modelled as `Nat` with explicit reduction modulo `2^32`
where the Rust code uses `u32`/`SeqNum` wrapping arithmetic.  Fallible
operations (slicing a payload, `u32::try_from(...).unwrap()`) are modelled
with `Option`; a `none`/`panicked` outcome corresponds to a Rust panic.
-/

namespace Netstack3

/-- The constant `2^32`, the size of the TCP sequence-number space. -/
def SEQ_MOD : Nat := 4294967296

/-- The constant `2^31`, half the sequence-number space. -/
def SEQ_HALF : Nat := 2147483648

/-- Modelled from the spec (§3): the maximum length such that the sequence
number does not wrap around; `MAX_PAYLOAD_AND_CONTROL_LEN = 1 << 31`
(`segment.rs` line 86). -/
def MAX_PAYLOAD_AND_CONTROL_LEN : Nat := 2147483648

/-- Modelled from the spec (§3): `WindowSize` invariant upper bound,
`2^30 - 1`. -/
def WINDOW_MAX : Nat := 1073741823

/-- Wrapping 32-bit distance `(a - b) mod 2^32`. -/
def wdist (a b : Nat) : Nat := (a + (SEQ_MOD - b % SEQ_MOD)) % SEQ_MOD

/-- Wrapping 32-bit subtraction (release-mode `u32` subtraction). -/
def wsub (a b : Nat) : Nat := (a + (SEQ_MOD - b % SEQ_MOD)) % SEQ_MOD

/-- Wrapping 32-bit addition: `SeqNum + len` and release-mode `u32` `+`. -/
def seqAdd (a b : Nat) : Nat := (a + b) % SEQ_MOD

/-- Modelled from the spec (§3, the `seqnum` module is not in `src/`):
signed wraparound distance `a - b`, the wrapping subtraction reinterpreted
as a signed 32-bit integer. -/
def seqSub (a b : Nat) : Int :=
  if wdist a b < SEQ_HALF then (wdist a b : Int) else (wdist a b : Int) - (SEQ_MOD : Int)

/-- Modelled from the spec (§3): `a.before(b)` iff the signed distance is
negative. -/
def seqBefore (a b : Nat) : Bool := decide (seqSub a b < 0)

/-- Modelled from the spec (§3): `a.after(b)` iff the signed distance is
positive. -/
def seqAfter (a b : Nat) : Bool := decide (0 < seqSub a b)

/-- Rust `core::cmp::max_by(a, b, cmp)` with `cmp = (a - b).cmp(&0)`:
returns the second argument unless strictly greater. -/
def seqMax (a b : Nat) : Nat := if 0 < seqSub a b then a else b

/-- Rust `core::cmp::min_by(a, b, cmp)`: returns the first argument unless the
comparison says `Greater`. -/
def seqMin (a b : Nat) : Nat := if seqSub a b ≤ 0 then a else b

/-- Conversion `u32::try_from` on a signed value: fails exactly on negative input. -/
def u32OfInt (i : Int) : Option Nat := if 0 ≤ i then some i.toNat else none

/-- The `Control` flag (`base.rs` is not in `src/`; modelled from the spec §3):
SYN/FIN/RST. -/
inductive Control
  | SYN
  | FIN
  | RST
deriving DecidableEq, Repr

/-- SYN and FIN each consume one unit of sequence space; RST consumes none. -/
def Control.has_sequence_no : Control → Bool
  | Control.SYN => true
  | Control.FIN => true
  | Control.RST => false

/-- A payload, modelled as a view `[lo, hi)` into an abstract byte buffer
(the shape of the source's `TestPayload`); `slice` takes offsets relative to
the view, checking the `Payload` contract (`segment.rs` lines 317-357):
the range must not be inverted and must lie within `[0, len())`;
a violation is a panic, modelled as `none`. -/
structure Pl where
  lo : Nat
  hi : Nat
deriving DecidableEq, Repr

/-- Payload length. -/
def Pl.len (p : Pl) : Nat := p.hi - p.lo

/-- Slice operation `Payload::slice` with the bounds check of the `&[u8]` implementation. -/
def Pl.slice (p : Pl) (a b : Nat) : Option Pl :=
  if a ≤ b ∧ b ≤ p.len then some ⟨p.lo + a, p.lo + b⟩ else none

/-- Supported TCP option entries (`packet_formats::tcp::options::TcpOption`,
modelled from the spec §4.1: MSS, window scale, and the recognized-but-ignored
SACK-permitted / SACK / timestamp entries). -/
inductive TcpOption
  | mss (v : Nat)
  | windowScale (v : Nat)
  | sackPermitted
  | sack (blocks : List (Nat × Nat))
  | timestamp (tsVal tsEcho : Nat)
deriving DecidableEq, Repr

/-- Supported options `Options` (`segment.rs` lines 35-42): optional MSS (a positive 16-bit
value) and optional window scale (at most 14). -/
structure Options where
  mss : Option Nat
  window_scale : Option Nat
deriving DecidableEq, Repr

/-- Default `Options::default()`: both absent. -/
def Options.default : Options := ⟨none, none⟩

/-- Maximum window scale `WindowScale::MAX.get()` = 14 (RFC 7323). -/
def WindowScaleMAX : Nat := 14

/-- Encoding `Options::iter` (`segment.rs` lines 46-51): MSS entry first if present,
then the window-scale entry if present. -/
def Options.iter (o : Options) : List TcpOption :=
  (o.mss.map TcpOption.mss).toList ++ (o.window_scale.map TcpOption.windowScale).toList

/-- One step of the `Options::from_iter` fold (`segment.rs` lines 56-80). -/
def Options.step (acc : Options) (opt : TcpOption) : Options :=
  match opt with
  | TcpOption.mss v => { acc with mss := if v = 0 then none else some v }
  | TcpOption.windowScale v =>
      { acc with window_scale := some (if v ≤ WindowScaleMAX then v else WindowScaleMAX) }
  | TcpOption.sackPermitted => acc
  | TcpOption.sack _ => acc
  | TcpOption.timestamp _ _ => acc

/-- Decoding `Options::from_iter` (`segment.rs` lines 54-82). -/
def Options.from_iter (l : List TcpOption) : Options :=
  l.foldl Options.step Options.default

/-- The `Contents` of a segment (`segment.rs` lines 91-98). -/
structure Contents where
  control : Option Control
  data : Pl
deriving DecidableEq, Repr

/-- Length `Contents::len` (`segment.rs` lines 106-113): SEG.LEN per RFC 793. -/
def Contents.len (c : Contents) : Nat :=
  c.data.len + (if (c.control.map Control.has_sequence_no).getD false then 1 else 0)

/-- A TCP `Segment` (`segment.rs` lines 20-32). -/
structure Segment where
  seq : Nat
  ack : Option Nat
  wnd : Nat
  contents : Contents
  options : Options
deriving DecidableEq, Repr

/-- Conversion `usize::from(has_control_len)`: the sequence unit consumed by the
control flag. -/
def ctrlLen : Option Control → Nat
  | some Control.SYN => 1
  | some Control.FIN => 1
  | some Control.RST => 0
  | none => 0

/-- Constructor `Segment::with_data_options` (`segment.rs` lines 129-158); the payload
slice is fallible, so the result is `none` exactly when the slice would
panic. `data.len().saturating_sub` is natural-number subtraction. -/
def with_data_options (seq : Nat) (ack : Option Nat) (control : Option Control)
    (wnd : Nat) (data : Pl) (options : Options) : Option (Segment × Nat) :=
  let discarded := data.len - (MAX_PAYLOAD_AND_CONTROL_LEN - ctrlLen control)
  if 0 < discarded then
    let control2 := if control = some Control.FIN then none else control
    let control_len := if control = some Control.FIN then 0 else ctrlLen control
    match data.slice 0 (MAX_PAYLOAD_AND_CONTROL_LEN - control_len) with
    | some d => some (⟨seq, ack, wnd, ⟨control2, d⟩, options⟩, discarded)
    | none => none
  else
    some (⟨seq, ack, wnd, ⟨control, data⟩, options⟩, discarded)

/-- The Step-1 acceptability test of `Segment::overlap`
(`segment.rs` lines 192-210). -/
def acceptTest (len seq rnxt rwnd : Nat) : Bool :=
  match len, rwnd with
  | 0, 0 => seq == rnxt
  | 0, _ => !(seqAfter rnxt seq) && seqBefore seq (seqAdd rnxt rwnd)
  | _, 0 => false
  | _, _ =>
      (!(seqAfter rnxt seq) && seqBefore seq (seqAdd rnxt rwnd))
      || (!(seqBefore (seqAdd seq len) rnxt) && !(seqAfter (seqAdd seq len) (seqAdd rnxt rwnd)))

/-- Outcome of `Segment::overlap`: a Rust panic, `None`, or `Some segment`. -/
inductive OverlapRes
  | panicked
  | reject
  | accept (s : Segment)
deriving DecidableEq, Repr

/-- Step-3 control/payload recomputation of `Segment::overlap`
(`segment.rs` lines 231-253), with release-mode wrapping `u32` arithmetic
and the fallible payload slice. -/
def sliceForControl (control : Option Control) (data : Pl) (len start new_len : Nat) :
    Option (Option Control × Pl) :=
  match control with
  | some Control.SYN =>
      if start = 0 then
        (data.slice start (wsub (seqAdd start new_len) 1)).map
          (fun d => (some Control.SYN, d))
      else
        (data.slice (wsub start 1) (wsub (seqAdd start new_len) 1)).map
          (fun d => (none, d))
  | some Control.FIN =>
      if len = seqAdd start new_len then
        if 0 < new_len then
          (data.slice start (wsub (seqAdd start new_len) 1)).map
            (fun d => (some Control.FIN, d))
        else
          (data.slice (wsub start 1) (wsub start 1)).map (fun d => (none, d))
      else
        (data.slice start (seqAdd start new_len)).map (fun d => (none, d))
  | some Control.RST => (data.slice start (seqAdd start new_len)).map (fun d => (control, d))
  | none => (data.slice start (seqAdd start new_len)).map (fun d => (control, d))

/-- Step-2 and Step-3 of `Segment::overlap` (`segment.rs` lines 211-261),
entered once the acceptability test passed: `new_seq = max_by(seq, rnxt)`,
`new_len = min_by(seq + len, rnxt + rwnd) - new_seq`, both converted to
unsigned values by `u32::try_from(...).unwrap()`. -/
def overlapClip (s : Segment) (rnxt rwnd : Nat) : OverlapRes :=
  match u32OfInt (seqSub (seqMax s.seq rnxt) s.seq),
      u32OfInt (seqSub (seqMin (seqAdd s.seq s.contents.len) (seqAdd rnxt rwnd))
        (seqMax s.seq rnxt)) with
  | some start, some new_len =>
      match sliceForControl s.contents.control s.contents.data s.contents.len start new_len with
      | some (c2, d2) =>
          OverlapRes.accept ⟨seqMax s.seq rnxt, s.ack, s.wnd, ⟨c2, d2⟩, s.options⟩
      | none => OverlapRes.panicked
  | _, _ => OverlapRes.panicked

/-- The function `Segment::overlap` (`segment.rs` lines 177-262). -/
def overlap (s : Segment) (rnxt rwnd : Nat) : OverlapRes :=
  if acceptTest s.contents.len s.seq rnxt rwnd then overlapClip s rnxt rwnd
  else OverlapRes.reject

/-- A `MalformedFlags`-style decode outcome of the wire adapter. -/
inductive DecodeResult
  | malformedFlags (syn fin rst : Bool)
  | ok (s : Segment)
  | panicked
deriving DecidableEq, Repr

/-- A parsed wire segment (the `packet_formats::tcp::TcpSegment` accessors
used by the adapter; modelled from the spec §4.5/§6). -/
structure TcpSegmentWire where
  syn : Bool
  fin : Bool
  rst : Bool
  seq_num : Nat
  ack_num : Option Nat
  window_size : Nat
  options_list : List TcpOption
  body : Pl
deriving DecidableEq, Repr

/-- Adapter `TryFrom<TcpSegment> for Segment` (`segment.rs` lines 405-428). -/
def try_from_wire (w : TcpSegmentWire) : DecodeResult :=
  if 1 < (if w.syn then 1 else 0) + (if w.fin then 1 else 0) + (if w.rst then 1 else 0) then
    DecodeResult.malformedFlags w.syn w.fin w.rst
  else
    let control :=
      (if w.syn then some Control.SYN else none) <|>
      ((if w.fin then some Control.FIN else none) <|>
        (if w.rst then some Control.RST else none))
    match with_data_options w.seq_num w.ack_num control w.window_size w.body
        (Options.from_iter w.options_list) with
    | some (s, _) => DecodeResult.ok s
    | none => DecodeResult.panicked

/-! ### Basic facts about the wraparound comparison primitives -/

lemma wdist_lt (a b : Nat) : wdist a b < SEQ_MOD := by
  simp only [wdist, SEQ_MOD]
  omega

lemma seqBefore_iff (a b : Nat) : seqBefore a b = true ↔ SEQ_HALF ≤ wdist a b := by
  unfold seqBefore seqSub
  have h := wdist_lt a b
  rcases lt_or_ge (wdist a b) SEQ_HALF with hlt | hge
  · rw [if_pos hlt]
    simp only [decide_eq_true_eq, SEQ_HALF, SEQ_MOD] at *
    omega
  · rw [if_neg (not_lt.mpr hge)]
    simp only [decide_eq_true_eq, SEQ_HALF, SEQ_MOD] at *
    omega

lemma seqBefore_false_iff (a b : Nat) : seqBefore a b = false ↔ wdist a b < SEQ_HALF := by
  rw [← Bool.not_eq_true, not_iff_comm, seqBefore_iff]
  omega

lemma seqAfter_iff (a b : Nat) :
    seqAfter a b = true ↔ 0 < wdist a b ∧ wdist a b < SEQ_HALF := by
  unfold seqAfter seqSub
  have h := wdist_lt a b
  rcases lt_or_ge (wdist a b) SEQ_HALF with hlt | hge
  · rw [if_pos hlt]
    simp only [decide_eq_true_eq, SEQ_HALF, SEQ_MOD] at *
    omega
  · rw [if_neg (not_lt.mpr hge)]
    simp only [decide_eq_true_eq, SEQ_HALF, SEQ_MOD] at *
    omega

lemma seqAfter_false_iff (a b : Nat) :
    seqAfter a b = false ↔ (wdist a b = 0 ∨ SEQ_HALF ≤ wdist a b) := by
  rw [← Bool.not_eq_true, not_iff_comm, seqAfter_iff]
  omega

lemma u32OfInt_seqSub (a b : Nat) :
    u32OfInt (seqSub a b) =
      if wdist a b < SEQ_HALF then some (wdist a b) else none := by
  unfold u32OfInt seqSub
  have h := wdist_lt a b
  rcases lt_or_ge (wdist a b) SEQ_HALF with hlt | hge
  · rw [if_pos hlt, if_pos hlt, if_pos (by positivity), Int.toNat_natCast]
  · rw [if_neg (not_lt.mpr hge), if_neg (not_lt.mpr hge), if_neg]
    simp only [SEQ_HALF, SEQ_MOD] at *
    omega

lemma seqSub_nonpos_iff (a b : Nat) :
    seqSub a b ≤ 0 ↔ (wdist a b = 0 ∨ SEQ_HALF ≤ wdist a b) := by
  unfold seqSub
  have h := wdist_lt a b
  rcases lt_or_ge (wdist a b) SEQ_HALF with hlt | hge
  · rw [if_pos hlt]
    simp only [SEQ_HALF, SEQ_MOD] at *
    omega
  · rw [if_neg (not_lt.mpr hge)]
    simp only [SEQ_HALF, SEQ_MOD] at *
    omega

lemma seqSub_pos_iff (a b : Nat) :
    0 < seqSub a b ↔ (0 < wdist a b ∧ wdist a b < SEQ_HALF) := by
  unfold seqSub
  have h := wdist_lt a b
  rcases lt_or_ge (wdist a b) SEQ_HALF with hlt | hge
  · rw [if_pos hlt]
    simp only [SEQ_HALF, SEQ_MOD] at *
    omega
  · rw [if_neg (not_lt.mpr hge)]
    simp only [SEQ_HALF, SEQ_MOD] at *
    omega

/-- Reversing a wraparound distance. -/
lemma wdist_rev (a b : Nat) (ha : a < SEQ_MOD) (hb : b < SEQ_MOD) :
    wdist b a = (SEQ_MOD - wdist a b) % SEQ_MOD := by
  simp only [wdist, SEQ_MOD] at *
  omega

/-- Distance to a wrapped sum on the right. -/
lemma wdist_seqAdd_right (a b c : Nat) :
    wdist a (seqAdd b c) = (wdist a b + (SEQ_MOD - c % SEQ_MOD)) % SEQ_MOD := by
  simp only [wdist, seqAdd, SEQ_MOD]
  omega

/-- Distance from a wrapped sum on the left. -/
lemma wdist_seqAdd_left (a b c : Nat) :
    wdist (seqAdd a c) b = (wdist a b + c) % SEQ_MOD := by
  simp only [wdist, seqAdd, SEQ_MOD]
  omega

/-- A zero wraparound distance between in-range values means equality. -/
lemma wdist_eq_zero_iff (a b : Nat) (ha : a < SEQ_MOD) (hb : b < SEQ_MOD) :
    wdist a b = 0 ↔ a = b := by
  simp only [wdist, SEQ_MOD] at *
  omega

/-! ### The RFC 793 acceptability table, stated from the spec's words (§4.4).

"`rcv_nxt ≤ x < rcv_nxt + rwnd` (wraparound-safe)" means the wraparound
distance from `rcv_nxt` to `x` is below `rwnd`; the inclusive variant
"`rcv_nxt ≤ x ≤ rcv_nxt + rwnd`" means that distance is at most `rwnd`. -/

/-- The acceptability table of spec §4.4, written independently of the code:
row 1: `len = 0, rwnd = 0`: accept iff `seq = rcv_nxt`;
row 2: `len = 0, rwnd > 0`: accept iff `rcv_nxt ≤ seq < rcv_nxt + rwnd`;
row 3: `len > 0, rwnd = 0`: never;
row 4: `len > 0, rwnd > 0`: `rcv_nxt ≤ seq < rcv_nxt + rwnd` or
`rcv_nxt ≤ seq + len ≤ rcv_nxt + rwnd`. -/
def rfc793Accept (len seq rnxt rwnd : Nat) : Bool :=
  match len, rwnd with
  | 0, 0 => seq == rnxt
  | 0, _ => decide (wdist seq rnxt < rwnd)
  | _, 0 => false
  | _, _ =>
      decide (wdist seq rnxt < rwnd) || decide (wdist (seqAdd seq len) rnxt ≤ rwnd)

/-- The code's Step-1 test agrees with the spec's table whenever the
`SeqNum`/`WindowSize` invariants hold. -/
lemma acceptTest_eq_rfc793 (len seq rnxt rwnd : Nat)
    (hseq : seq < SEQ_MOD) (hrnxt : rnxt < SEQ_MOD) (hrwnd : rwnd ≤ WINDOW_MAX) :
    acceptTest len seq rnxt rwnd = rfc793Accept len seq rnxt rwnd := by
  cases len with
  | zero =>
      cases rwnd with
      | zero => rfl
      | succ r =>
          rw [Bool.eq_iff_iff]
          simp only [acceptTest, rfc793Accept, Bool.and_eq_true, Bool.not_eq_true',
            seqAfter_false_iff, seqBefore_iff, decide_eq_true_eq]
          rw [wdist_rev seq rnxt hseq hrnxt, wdist_seqAdd_right]
          have hD := wdist_lt seq rnxt
          generalize wdist seq rnxt = D at hD ⊢
          simp only [SEQ_MOD, SEQ_HALF, WINDOW_MAX] at *
          omega
  | succ l =>
      cases rwnd with
      | zero => rfl
      | succ r =>
          rw [Bool.eq_iff_iff]
          simp only [acceptTest, rfc793Accept, Bool.and_eq_true, Bool.or_eq_true,
            Bool.not_eq_true', seqAfter_false_iff, seqBefore_iff, seqBefore_false_iff,
            decide_eq_true_eq]
          have e4 : wdist (seqAdd seq (l + 1)) (seqAdd rnxt (r + 1)) =
              ((wdist seq rnxt + (l + 1)) % SEQ_MOD +
                (SEQ_MOD - (r + 1) % SEQ_MOD)) % SEQ_MOD := by
            rw [wdist_seqAdd_right, wdist_seqAdd_left]
          rw [e4, wdist_seqAdd_left, wdist_seqAdd_right,
            wdist_rev seq rnxt hseq hrnxt]
          have hD := wdist_lt seq rnxt
          generalize wdist seq rnxt = D at hD ⊢
          simp only [SEQ_MOD, SEQ_HALF, WINDOW_MAX] at *
          omega

lemma wdist_self (a : Nat) (ha : a < SEQ_MOD) : wdist a a = 0 := by
  simp only [wdist, SEQ_MOD] at *
  omega

lemma wsub_one (a : Nat) (h1 : 1 ≤ a) (h2 : a < SEQ_MOD) : wsub a 1 = a - 1 := by
  simp only [wsub, SEQ_MOD] at *
  omega

lemma seqAdd_small (a b : Nat) (h : a + b < SEQ_MOD) : seqAdd a b = a + b := by
  simp only [seqAdd, SEQ_MOD] at *
  omega

/-! ### The reference clipping of spec §4.4 Steps 2 and 3, stated from the
spec's words: `new_seq = max(seq, rcv_nxt)`,
`new_len = min(seq + len, rcv_nxt + rcv_wnd) - new_seq`,
`start = new_seq - seq`, all wraparound-safe, followed by the Step-3
control/payload table over plain (non-wrapping) offsets. -/

/-- Reference `max(seq, rcv_nxt)` in the wraparound order: `seq` when `seq` is at or
after `rcv_nxt` (distance below `2^31`), else `rcv_nxt`. -/
def specNewSeq (seq rnxt : Nat) : Nat :=
  if wdist seq rnxt < SEQ_HALF then seq else rnxt

/-- Reference `start = new_seq - seq` (wraparound-safe unsigned offset). -/
def specStart (seq rnxt : Nat) : Nat := wdist (specNewSeq seq rnxt) seq

/-- Reference `min(seq + len, rcv_nxt + rcv_wnd)` in the wraparound order. -/
def specMinEnd (seq len rnxt rwnd : Nat) : Nat :=
  if wdist (seqAdd seq len) (seqAdd rnxt rwnd) = 0 ∨
      SEQ_HALF ≤ wdist (seqAdd seq len) (seqAdd rnxt rwnd) then
    seqAdd seq len
  else seqAdd rnxt rwnd

/-- Reference `new_len = min(seq + len, rcv_nxt + rcv_wnd) - new_seq` (wraparound-safe). -/
def specNewLen (seq len rnxt rwnd : Nat) : Nat :=
  wdist (specMinEnd seq len rnxt rwnd) (specNewSeq seq rnxt)

/-- The Step-3 control recomputation and payload slice of spec §4.4, written
with plain natural-number offsets as in the spec's table. -/
def specClip (control : Option Control) (data : Pl) (len st nl : Nat) : Contents :=
  match control with
  | some Control.SYN =>
      if st = 0 then ⟨some Control.SYN, ⟨data.lo + st, data.lo + (st + nl - 1)⟩⟩
      else ⟨none, ⟨data.lo + (st - 1), data.lo + (st + nl - 1)⟩⟩
  | some Control.FIN =>
      if len = st + nl then
        if 0 < nl then ⟨some Control.FIN, ⟨data.lo + st, data.lo + (st + nl - 1)⟩⟩
        else ⟨none, ⟨data.lo + (st - 1), data.lo + (st - 1)⟩⟩
      else ⟨none, ⟨data.lo + st, data.lo + (st + nl)⟩⟩
  | some Control.RST => ⟨control, ⟨data.lo + st, data.lo + (st + nl)⟩⟩
  | none => ⟨control, ⟨data.lo + st, data.lo + (st + nl)⟩⟩

/-- A clean propositional reading of the spec's acceptability table. -/
lemma rfc793Accept_true_iff (len seq rnxt rwnd : Nat) :
    rfc793Accept len seq rnxt rwnd = true ↔
      ((len = 0 ∧ rwnd = 0 ∧ seq = rnxt) ∨
        (len = 0 ∧ 0 < rwnd ∧ wdist seq rnxt < rwnd) ∨
        (0 < len ∧ 0 < rwnd ∧
          (wdist seq rnxt < rwnd ∨ wdist (seqAdd seq len) rnxt ≤ rwnd))) := by
  cases len with
  | zero =>
      cases rwnd with
      | zero => simp [rfc793Accept]
      | succ r => simp [rfc793Accept]
  | succ l =>
      cases rwnd with
      | zero => simp [rfc793Accept]
      | succ r => simp [rfc793Accept]

/-- The code's `max_by` agrees with the reference maximum for in-range sequence
numbers. -/
lemma seqMax_eq_specNewSeq (seq rnxt : Nat) (hseq : seq < SEQ_MOD)
    (hrnxt : rnxt < SEQ_MOD) : seqMax seq rnxt = specNewSeq seq rnxt := by
  by_cases h0 : wdist seq rnxt = 0
  · have he : seq = rnxt := (wdist_eq_zero_iff seq rnxt hseq hrnxt).mp h0
    subst he
    simp [seqMax, specNewSeq]
  · unfold seqMax specNewSeq
    simp only [seqSub_pos_iff]
    split_ifs with h1 h2 h2
    · rfl
    · omega
    · omega
    · rfl

/-- The code's `min_by` agrees with the reference minimum. -/
lemma seqMin_eq_specMinEnd (seq len rnxt rwnd : Nat) :
    seqMin (seqAdd seq len) (seqAdd rnxt rwnd) = specMinEnd seq len rnxt rwnd := by
  unfold seqMin specMinEnd
  simp only [seqSub_nonpos_iff]

/-- Away from the half-space boundary, `u32::try_from(new_seq - seq)`
succeeds and returns the reference `start`. -/
lemma u32OfInt_start (seq rnxt : Nat) (hseq : seq < SEQ_MOD) (hrnxt : rnxt < SEQ_MOD)
    (hne : wdist seq rnxt ≠ SEQ_HALF) :
    u32OfInt (seqSub (specNewSeq seq rnxt) seq) = some (specStart seq rnxt) := by
  rw [u32OfInt_seqSub, specStart]
  rw [if_pos]
  unfold specNewSeq
  have hD := wdist_lt seq rnxt
  split_ifs with h1
  · rw [wdist_self seq hseq]
    simp only [SEQ_HALF]
    omega
  · rw [wdist_rev seq rnxt hseq hrnxt]
    simp only [SEQ_MOD, SEQ_HALF] at *
    omega

/-- The central arithmetic facts about the reference clip bounds, given the
data-model invariants, an accepted input, and a segment start distance away
from the half-space boundary. -/
lemma clip_bounds (seq len rnxt rwnd : Nat) (hseq : seq < SEQ_MOD)
    (hrnxt : rnxt < SEQ_MOD) (hrwnd : rwnd ≤ WINDOW_MAX) (hlen : len ≤ SEQ_HALF)
    (hne : wdist seq rnxt ≠ SEQ_HALF)
    (hacc : rfc793Accept len seq rnxt rwnd = true) :
    specNewLen seq len rnxt rwnd < SEQ_HALF ∧
      specStart seq rnxt + specNewLen seq len rnxt rwnd ≤ len ∧
      specNewLen seq len rnxt rwnd ≤ rwnd ∧
      wdist (specNewSeq seq rnxt) rnxt ≤ rwnd ∧
      (specStart seq rnxt = 0 → 0 < len → 0 < specNewLen seq len rnxt rwnd) ∧
      specStart seq rnxt < SEQ_HALF := by
  rw [rfc793Accept_true_iff, ← wdist_eq_zero_iff seq rnxt hseq hrnxt] at hacc
  have hD := wdist_lt seq rnxt
  have hrev : wdist rnxt seq = (SEQ_MOD - wdist seq rnxt) % SEQ_MOD :=
    wdist_rev seq rnxt hseq hrnxt
  have hF : wdist (seqAdd seq len) rnxt = (wdist seq rnxt + len) % SEQ_MOD := by
    rw [wdist_seqAdd_left]
  have hG : wdist (seqAdd seq len) (seqAdd rnxt rwnd) =
      ((wdist seq rnxt + len) % SEQ_MOD + (SEQ_MOD - rwnd % SEQ_MOD)) % SEQ_MOD := by
    rw [wdist_seqAdd_right, hF]
  have hA : wdist (seqAdd seq len) seq = len % SEQ_MOD := by
    rw [wdist_seqAdd_left, wdist_self seq hseq, Nat.zero_add]
  have hB : wdist (seqAdd rnxt rwnd) seq =
      ((SEQ_MOD - wdist seq rnxt) % SEQ_MOD + rwnd) % SEQ_MOD := by
    rw [wdist_seqAdd_left, hrev]
  have hC : wdist (seqAdd rnxt rwnd) rnxt = rwnd % SEQ_MOD := by
    rw [wdist_seqAdd_left, wdist_self rnxt hrnxt, Nat.zero_add]
  unfold specNewLen specStart specMinEnd specNewSeq
  split_ifs <;>
    simp only [hA, hB, hC, hF, hG, hrev, wdist_self seq hseq, wdist_self rnxt hrnxt] at * <;>
    simp only [SEQ_MOD, SEQ_HALF, WINDOW_MAX] at * <;>
    omega

lemma Contents_len_none (d : Pl) : Contents.len ⟨none, d⟩ = d.len := by
  simp [Contents.len]

lemma Contents_len_syn (d : Pl) : Contents.len ⟨some Control.SYN, d⟩ = d.len + 1 := by
  simp [Contents.len, Control.has_sequence_no]

lemma Contents_len_fin (d : Pl) : Contents.len ⟨some Control.FIN, d⟩ = d.len + 1 := by
  simp [Contents.len, Control.has_sequence_no]

lemma Contents_len_rst (d : Pl) : Contents.len ⟨some Control.RST, d⟩ = d.len := by
  simp [Contents.len, Control.has_sequence_no]

/-- Under the clip bounds, the code's Step-3 slicing succeeds and produces
exactly the spec's Step-3 table. -/
lemma sliceForControl_eq_specClip (control : Option Control) (data : Pl) (len st nl : Nat)
    (hrel : len = Contents.len ⟨control, data⟩) (hH : len ≤ SEQ_HALF)
    (hbound : st + nl ≤ len) (hpos : st = 0 → 0 < len → 0 < nl) :
    sliceForControl control data len st nl =
      some ((specClip control data len st nl).control,
        (specClip control data len st nl).data) := by
  have hM : st + nl < SEQ_MOD := by
    simp only [SEQ_HALF, SEQ_MOD] at *
    omega
  have hadd : seqAdd st nl = st + nl := seqAdd_small st nl hM
  cases control with
  | none =>
      rw [Contents_len_none] at hrel
      simp only [sliceForControl, specClip, hadd, Pl.slice]
      rw [if_pos ⟨Nat.le_add_right st nl, by omega⟩]
      rfl
  | some c =>
      cases c with
      | RST =>
          rw [Contents_len_rst] at hrel
          simp only [sliceForControl, specClip, hadd, Pl.slice]
          rw [if_pos ⟨Nat.le_add_right st nl, by omega⟩]
          rfl
      | SYN =>
          rw [Contents_len_syn] at hrel
          by_cases hst : st = 0
          · have hnl : 0 < nl := hpos hst (by omega)
            simp only [sliceForControl, specClip, hadd, if_pos hst]
            rw [wsub_one (st + nl) (by omega) hM]
            simp only [Pl.slice]
            rw [if_pos ⟨by omega, by omega⟩]
            rfl
          · have hst1 : 1 ≤ st := by omega
            simp only [sliceForControl, specClip, hadd, if_neg hst]
            rw [wsub_one (st + nl) (by omega) hM, wsub_one st hst1 (by omega)]
            simp only [Pl.slice]
            rw [if_pos ⟨by omega, by omega⟩]
            rfl
      | FIN =>
          rw [Contents_len_fin] at hrel
          by_cases hend : len = st + nl
          · by_cases hnl : 0 < nl
            · simp only [sliceForControl, specClip, hadd, if_pos hend, if_pos hnl]
              rw [wsub_one (st + nl) (by omega) hM]
              simp only [Pl.slice]
              rw [if_pos ⟨by omega, by omega⟩]
              rfl
            · have hnl0 : nl = 0 := by omega
              have hst1 : 1 ≤ st := by omega
              simp only [sliceForControl, specClip, hadd, if_pos hend, if_neg hnl]
              rw [wsub_one st hst1 (by omega)]
              simp only [Pl.slice]
              rw [if_pos ⟨le_refl _, by omega⟩]
              rfl
          · simp only [sliceForControl, specClip, hadd, if_neg hend, Pl.slice]
            rw [if_pos ⟨Nat.le_add_right st nl, by omega⟩]
            rfl

/-- The sequence-space length of the spec's Step-3 result is exactly
`new_len`. -/
lemma specClip_len (control : Option Control) (data : Pl) (len st nl : Nat)
    (hrel : len = Contents.len ⟨control, data⟩) (hH : len ≤ SEQ_HALF)
    (hbound : st + nl ≤ len) (hpos : st = 0 → 0 < len → 0 < nl) :
    Contents.len (specClip control data len st nl) = nl := by
  cases control with
  | none =>
      rw [Contents_len_none] at hrel
      simp only [specClip, Contents_len_none, Pl.len]
      omega
  | some c =>
      cases c with
      | RST =>
          rw [Contents_len_rst] at hrel
          simp only [specClip, Contents_len_rst, Pl.len]
          omega
      | SYN =>
          rw [Contents_len_syn] at hrel
          by_cases hst : st = 0
          · have hnl : 0 < nl := hpos hst (by omega)
            simp only [specClip, if_pos hst, Contents_len_syn, Pl.len]
            omega
          · simp only [specClip, if_neg hst, Contents_len_none, Pl.len]
            omega
      | FIN =>
          rw [Contents_len_fin] at hrel
          by_cases hend : len = st + nl
          · by_cases hnl : 0 < nl
            · simp only [specClip, if_pos hend, if_pos hnl, Contents_len_fin, Pl.len]
              omega
            · simp only [specClip, if_pos hend, if_neg hnl, Contents_len_none, Pl.len]
              omega
          · simp only [specClip, if_neg hend, Contents_len_none, Pl.len]
            omega

/-- Master characterization: on an accepted input away from the half-space
boundary, `overlap` returns exactly the spec's clipped segment. -/
lemma overlap_eq_accept_spec (s : Segment) (rnxt rwnd : Nat)
    (hseq : s.seq < SEQ_MOD) (hrnxt : rnxt < SEQ_MOD) (hrwnd : rwnd ≤ WINDOW_MAX)
    (hlen : s.contents.len ≤ SEQ_HALF) (hne : wdist s.seq rnxt ≠ SEQ_HALF)
    (hacc : acceptTest s.contents.len s.seq rnxt rwnd = true) :
    overlap s rnxt rwnd = OverlapRes.accept
      ⟨specNewSeq s.seq rnxt, s.ack, s.wnd,
        specClip s.contents.control s.contents.data s.contents.len
          (specStart s.seq rnxt) (specNewLen s.seq s.contents.len rnxt rwnd),
        s.options⟩ := by
  have hacc' : rfc793Accept s.contents.len s.seq rnxt rwnd = true := by
    rw [← acceptTest_eq_rfc793 s.contents.len s.seq rnxt rwnd hseq hrnxt hrwnd]
    exact hacc
  obtain ⟨hnlH, hbound, hnlw, hdist, hpos, hstH⟩ :=
    clip_bounds s.seq s.contents.len rnxt rwnd hseq hrnxt hrwnd hlen hne hacc'
  have h1 : u32OfInt (seqSub (seqMax s.seq rnxt) s.seq) = some (specStart s.seq rnxt) := by
    rw [seqMax_eq_specNewSeq s.seq rnxt hseq hrnxt]
    exact u32OfInt_start s.seq rnxt hseq hrnxt hne
  have h2 : u32OfInt (seqSub (seqMin (seqAdd s.seq s.contents.len) (seqAdd rnxt rwnd))
      (seqMax s.seq rnxt)) = some (specNewLen s.seq s.contents.len rnxt rwnd) := by
    unfold specNewLen at hnlH
    rw [seqMax_eq_specNewSeq s.seq rnxt hseq hrnxt, seqMin_eq_specMinEnd,
      u32OfInt_seqSub, if_pos hnlH]
    rfl
  unfold overlap
  rw [if_pos hacc]
  unfold overlapClip
  simp only [h1, h2]
  rw [sliceForControl_eq_specClip s.contents.control s.contents.data s.contents.len
    (specStart s.seq rnxt) (specNewLen s.seq s.contents.len rnxt rwnd) rfl hlen hbound hpos,
    seqMax_eq_specNewSeq s.seq rnxt hseq hrnxt]

lemma overlapClip_ne_reject (s : Segment) (rnxt rwnd : Nat) :
    overlapClip s rnxt rwnd ≠ OverlapRes.reject := by
  unfold overlapClip
  cases h1 : u32OfInt (seqSub (seqMax s.seq rnxt) s.seq) with
  | none => simp
  | some st =>
      cases h2 : u32OfInt (seqSub (seqMin (seqAdd s.seq s.contents.len) (seqAdd rnxt rwnd))
          (seqMax s.seq rnxt)) with
      | none => simp
      | some nl =>
          cases h3 : sliceForControl s.contents.control s.contents.data s.contents.len st nl with
          | none => simp [h3]
          | some p =>
              cases p with
              | mk c2 d2 => simp [h3]

/-- C1: `overlap(seg, rcv_nxt, rcv_wnd)` returns nothing iff the RFC 793
acceptability table (spec §4.4, including the deliberately relaxed second
disjunct testing `seq + len`) evaluates false, for every segment, every
`rcv_nxt`, and every `rcv_wnd ≤ 2^30 - 1`. -/
theorem overlap_reject_iff_rfc793 (s : Segment) (rnxt rwnd : Nat)
    (hseq : s.seq < SEQ_MOD) (hrnxt : rnxt < SEQ_MOD) (hrwnd : rwnd ≤ WINDOW_MAX) :
    overlap s rnxt rwnd = OverlapRes.reject ↔
      rfc793Accept s.contents.len s.seq rnxt rwnd = false := by
  unfold overlap
  rw [acceptTest_eq_rfc793 _ _ _ _ hseq hrnxt hrwnd]
  rcases h : rfc793Accept s.contents.len s.seq rnxt rwnd with _ | _
  · simp
  · simp only [if_pos rfl]
    constructor
    · intro hc
      exact absurd hc (overlapClip_ne_reject s rnxt rwnd)
    · intro hc
      exact absurd hc (by simp)

/-- Witness for C1 at a concrete input: `seq = 1, len = 0, rcv_nxt = 1,
rcv_wnd = 0` is accepted, so `overlap` does not reject. -/
theorem overlap_reject_iff_rfc793_witness :
    (1 < SEQ_MOD ∧ (0 : Nat) ≤ WINDOW_MAX) ∧
      (overlap ⟨1, none, 0, ⟨none, ⟨0, 0⟩⟩, Options.default⟩ 1 0 = OverlapRes.reject ↔
        rfc793Accept 0 1 1 0 = false) :=
  ⟨by decide,
    overlap_reject_iff_rfc793 ⟨1, none, 0, ⟨none, ⟨0, 0⟩⟩, Options.default⟩ 1 0
      (by decide) (by decide) (by decide)⟩

/-- At sequence distance exactly `2^31` the `u32::try_from(new_seq - seq)`
conversion fails: the clip step panics. -/
lemma overlapClip_panicked_at_half (s : Segment) (rnxt rwnd : Nat)
    (hseq : s.seq < SEQ_MOD) (hrnxt : rnxt < SEQ_MOD)
    (hd : wdist s.seq rnxt = SEQ_HALF) :
    overlapClip s rnxt rwnd = OverlapRes.panicked := by
  have hmax : seqMax s.seq rnxt = rnxt := by
    unfold seqMax
    rw [if_neg]
    rw [seqSub_pos_iff]
    omega
  have hrevH : ¬ (wdist rnxt s.seq < SEQ_HALF) := by
    rw [wdist_rev s.seq rnxt hseq hrnxt, hd]
    simp only [SEQ_MOD, SEQ_HALF]
    omega
  have hstart : u32OfInt (seqSub (seqMax s.seq rnxt) s.seq) = none := by
    rw [hmax, u32OfInt_seqSub, if_neg hrevH]
  unfold overlapClip
  rw [hstart]

/-- C2 counterexample: the input `seq = 2^31, len = 2^31` (control absent),
`rcv_nxt = 0, rcv_wnd = 2` satisfies the data-model invariants and passes the
Step-1 acceptability test, yet `overlap` does not return the reference
segment — it panics in `u32::try_from(new_seq - seq)`. -/
theorem overlap_reference_fails_at_half_distance :
    acceptTest (Contents.len ⟨none, ⟨0, 2147483648⟩⟩) 2147483648 0 2 = true ∧
      Contents.len ⟨none, ⟨0, 2147483648⟩⟩ ≤ SEQ_HALF ∧ (2 : Nat) ≤ WINDOW_MAX ∧
      overlap ⟨2147483648, none, 0, ⟨none, ⟨0, 2147483648⟩⟩, Options.default⟩ 0 2 =
        OverlapRes.panicked := by
  constructor
  · decide
  · constructor
    · decide
    · constructor
      · decide
      · decide

/-- C2 (amended): for every input satisfying the data-model invariants that
passes the Step-1 test, and whose start distance `seq - rcv_nxt` is not
exactly `2^31` (where the code instead panics), `overlap` returns `Some`
segment equal to the reference definition: `new_seq = max(seq, rcv_nxt)`,
`new_len = min(seq + len, rcv_nxt + rcv_wnd) - new_seq`,
`start = new_seq - seq` (all wraparound-safe), with control and data slice
recomputed per the SYN/FIN/RST-or-absent table, and `ack`/`wnd`/`options`
carried through. -/
theorem overlap_accept_eq_reference (s : Segment) (rnxt rwnd : Nat)
    (hseq : s.seq < SEQ_MOD) (hrnxt : rnxt < SEQ_MOD) (hrwnd : rwnd ≤ WINDOW_MAX)
    (hlen : s.contents.len ≤ SEQ_HALF) (hne : wdist s.seq rnxt ≠ SEQ_HALF)
    (hacc : acceptTest s.contents.len s.seq rnxt rwnd = true) :
    overlap s rnxt rwnd = OverlapRes.accept
      ⟨specNewSeq s.seq rnxt, s.ack, s.wnd,
        specClip s.contents.control s.contents.data s.contents.len
          (specStart s.seq rnxt) (specNewLen s.seq s.contents.len rnxt rwnd),
        s.options⟩ :=
  overlap_eq_accept_spec s rnxt rwnd hseq hrnxt hrwnd hlen hne hacc

/-- Witness for C2 at the source's regression-test input
(`seq = 1`, FIN, one data byte, `rcv_nxt = 3`, `rcv_wnd = 10`). -/
theorem overlap_accept_eq_reference_witness :
    (acceptTest (Contents.len ⟨some Control.FIN, ⟨0, 1⟩⟩) 1 3 10 = true ∧
      wdist 1 3 ≠ SEQ_HALF ∧ Contents.len ⟨some Control.FIN, ⟨0, 1⟩⟩ ≤ SEQ_HALF) ∧
      overlap ⟨1, none, 0, ⟨some Control.FIN, ⟨0, 1⟩⟩, Options.default⟩ 3 10 =
        OverlapRes.accept
          ⟨specNewSeq 1 3, none, 0,
            specClip (some Control.FIN) ⟨0, 1⟩ (Contents.len ⟨some Control.FIN, ⟨0, 1⟩⟩)
              (specStart 1 3) (specNewLen 1 (Contents.len ⟨some Control.FIN, ⟨0, 1⟩⟩) 3 10),
            Options.default⟩ :=
  ⟨⟨by decide, by decide, by decide⟩,
    overlap_accept_eq_reference ⟨1, none, 0, ⟨some Control.FIN, ⟨0, 1⟩⟩, Options.default⟩ 3 10
      (by decide) (by decide) (by decide) (by decide) (by decide) (by decide)⟩

/-- C5: the spec claims `overlap` never panics for inputs within the
`SeqNum`/`WindowSize` invariants that pass Step 1, and the code's own
comment asserts the `u32::try_from(new_seq - seq).unwrap()` cannot fail; yet
for `seq = 2^31, len = 2^31` (control absent, so `len ≤ 2^31` holds),
`rcv_nxt = 0, rcv_wnd = 1`, Step 1 accepts (second disjunct: `seq + len =
rcv_nxt`) while `new_seq - seq = -2^31`, so the conversion fails and the
code panics. -/
theorem overlap_panics_within_invariants :
    Contents.len ⟨none, ⟨0, 2147483648⟩⟩ ≤ SEQ_HALF ∧ (1 : Nat) ≤ WINDOW_MAX ∧
      acceptTest (Contents.len ⟨none, ⟨0, 2147483648⟩⟩) 2147483648 0 1 = true ∧
      overlap ⟨2147483648, none, 0, ⟨none, ⟨0, 2147483648⟩⟩, Options.default⟩ 0 1 =
        OverlapRes.panicked := by
  refine ⟨by decide, by decide, by decide, by decide⟩

/-- C8: whenever `overlap` returns a segment, its `ack`, `wnd` and `options`
fields equal those of the input segment (no invariants needed: every success
path of the code carries them through unchanged). -/
theorem overlap_preserves_ack_wnd_options (s : Segment) (rnxt rwnd : Nat) (s' : Segment)
    (h : overlap s rnxt rwnd = OverlapRes.accept s') :
    s'.ack = s.ack ∧ s'.wnd = s.wnd ∧ s'.options = s.options := by
  unfold overlap at h
  by_cases hacc : acceptTest s.contents.len s.seq rnxt rwnd
  · rw [if_pos hacc] at h
    unfold overlapClip at h
    cases h1 : u32OfInt (seqSub (seqMax s.seq rnxt) s.seq) with
    | none => rw [h1] at h; simp at h
    | some st =>
        cases h2 : u32OfInt (seqSub (seqMin (seqAdd s.seq s.contents.len) (seqAdd rnxt rwnd))
            (seqMax s.seq rnxt)) with
        | none => rw [h1, h2] at h; simp at h
        | some nl =>
            cases h3 : sliceForControl s.contents.control s.contents.data
                s.contents.len st nl with
            | none => rw [h1, h2] at h; simp [h3] at h
            | some p =>
                cases p with
                | mk c2 d2 =>
                    rw [h1, h2] at h
                    simp only [h3, OverlapRes.accept.injEq] at h
                    subst h
                    exact ⟨rfl, rfl, rfl⟩
  · rw [if_neg hacc] at h
    simp at h

/-- Witness for C8 at a concrete accepted input carrying an ack, a window
and options. -/
theorem overlap_preserves_ack_wnd_options_witness :
    overlap ⟨1, some 9, 7, ⟨none, ⟨0, 0⟩⟩, ⟨some 536, some 7⟩⟩ 1 1 =
        OverlapRes.accept ⟨1, some 9, 7, ⟨none, ⟨0, 0⟩⟩, ⟨some 536, some 7⟩⟩ ∧
      ((⟨1, some 9, 7, ⟨none, ⟨0, 0⟩⟩, ⟨some 536, some 7⟩⟩ : Segment).ack = some 9 ∧
        (⟨1, some 9, 7, ⟨none, ⟨0, 0⟩⟩, ⟨some 536, some 7⟩⟩ : Segment).wnd = 7 ∧
        (⟨1, some 9, 7, ⟨none, ⟨0, 0⟩⟩, ⟨some 536, some 7⟩⟩ : Segment).options =
          ⟨some 536, some 7⟩) :=
  ⟨by decide,
    overlap_preserves_ack_wnd_options ⟨1, some 9, 7, ⟨none, ⟨0, 0⟩⟩, ⟨some 536, some 7⟩⟩ 1 1
      ⟨1, some 9, 7, ⟨none, ⟨0, 0⟩⟩, ⟨some 536, some 7⟩⟩ (by decide)⟩

/-- C10: an accepted-and-returned segment lies within both the receive
window and the original segment: its start is at distance at most `rcv_wnd`
from `rcv_nxt`, and its sequence-space length is bounded by `rcv_wnd` and by
the original length. -/
theorem overlap_result_within_window (s : Segment) (rnxt rwnd : Nat) (s' : Segment)
    (hseq : s.seq < SEQ_MOD) (hrnxt : rnxt < SEQ_MOD) (hrwnd : rwnd ≤ WINDOW_MAX)
    (hlen : s.contents.len ≤ SEQ_HALF)
    (h : overlap s rnxt rwnd = OverlapRes.accept s') :
    wdist s'.seq rnxt ≤ rwnd ∧ s'.contents.len ≤ rwnd ∧
      s'.contents.len ≤ s.contents.len := by
  by_cases hacc : acceptTest s.contents.len s.seq rnxt rwnd
  · by_cases hne : wdist s.seq rnxt = SEQ_HALF
    · exfalso
      unfold overlap at h
      rw [if_pos hacc, overlapClip_panicked_at_half s rnxt rwnd hseq hrnxt hne] at h
      simp at h
    · have hacc' : rfc793Accept s.contents.len s.seq rnxt rwnd = true := by
        rw [← acceptTest_eq_rfc793 s.contents.len s.seq rnxt rwnd hseq hrnxt hrwnd]
        exact hacc
      obtain ⟨hnlH, hbound, hnlw, hdist, hpos, hstH⟩ :=
        clip_bounds s.seq s.contents.len rnxt rwnd hseq hrnxt hrwnd hlen hne hacc'
      rw [overlap_eq_accept_spec s rnxt rwnd hseq hrnxt hrwnd hlen hne hacc] at h
      simp only [OverlapRes.accept.injEq] at h
      rw [← h]
      have hcl := specClip_len s.contents.control s.contents.data s.contents.len
        (specStart s.seq rnxt) (specNewLen s.seq s.contents.len rnxt rwnd) rfl hlen hbound hpos
      refine ⟨hdist, ?_, ?_⟩
      · simpa [hcl] using hnlw
      · rw [show (⟨specNewSeq s.seq rnxt, s.ack, s.wnd,
          specClip s.contents.control s.contents.data s.contents.len
            (specStart s.seq rnxt) (specNewLen s.seq s.contents.len rnxt rwnd),
          s.options⟩ : Segment).contents =
            specClip s.contents.control s.contents.data s.contents.len
              (specStart s.seq rnxt) (specNewLen s.seq s.contents.len rnxt rwnd) from rfl, hcl]
        omega
  · exfalso
    unfold overlap at h
    rw [if_neg hacc] at h
    simp at h

/-- Witness for C10 at the regression-test input. -/
theorem overlap_result_within_window_witness :
    (overlap ⟨1, none, 0, ⟨some Control.FIN, ⟨0, 1⟩⟩, Options.default⟩ 3 10 =
        OverlapRes.accept ⟨3, none, 0, ⟨none, ⟨1, 1⟩⟩, Options.default⟩) ∧
      (wdist (3 : Nat) 3 ≤ 10 ∧
        Contents.len ⟨none, ⟨1, 1⟩⟩ ≤ 10 ∧
        Contents.len ⟨none, ⟨1, 1⟩⟩ ≤ Contents.len ⟨some Control.FIN, ⟨0, 1⟩⟩) :=
  ⟨by decide,
    overlap_result_within_window ⟨1, none, 0, ⟨some Control.FIN, ⟨0, 1⟩⟩, Options.default⟩ 3 10
      ⟨3, none, 0, ⟨none, ⟨1, 1⟩⟩, Options.default⟩
      (by decide) (by decide) (by decide) (by decide) (by decide)⟩

/-! ### The truncation rule of `with_data_options` (spec §4.2) -/

/-- The `has_ctrl` value of spec §4.2: 1 iff the control is SYN or FIN, else 0. -/
def hasCtrl : Option Control → Nat
  | some Control.SYN => 1
  | some Control.FIN => 1
  | some Control.RST => 0
  | none => 0

/-- Reference `discarded = max(0, data.len() - (MAX_PAYLOAD_AND_CONTROL_LEN - has_ctrl))`. -/
def truncDiscarded (control : Option Control) (data : Pl) : Nat :=
  data.len - (MAX_PAYLOAD_AND_CONTROL_LEN - hasCtrl control)

/-- The truncation rule of spec §4.2: unchanged when nothing is discarded;
otherwise FIN is dropped and data sliced to `[0, MAX)`, or data is sliced to
`[0, MAX - has_ctrl)` with the control kept. -/
def truncContents (control : Option Control) (data : Pl) : Contents :=
  if truncDiscarded control data = 0 then ⟨control, data⟩
  else if control = some Control.FIN then
    ⟨none, ⟨data.lo, data.lo + MAX_PAYLOAD_AND_CONTROL_LEN⟩⟩
  else ⟨control, ⟨data.lo, data.lo + (MAX_PAYLOAD_AND_CONTROL_LEN - hasCtrl control)⟩⟩

/-- The code's `with_data_options` never hits the fallible slice and implements the
spec's truncation rule exactly. -/
lemma with_data_options_eq (seq : Nat) (ack : Option Nat) (control : Option Control)
    (wnd : Nat) (data : Pl) (options : Options) :
    with_data_options seq ack control wnd data options =
      some (⟨seq, ack, wnd, truncContents control data, options⟩,
        truncDiscarded control data) := by
  cases control with
  | none =>
      by_cases hd : data.len - MAX_PAYLOAD_AND_CONTROL_LEN = 0
      · have h1 : ¬ MAX_PAYLOAD_AND_CONTROL_LEN < data.len := by omega
        simp [with_data_options, ctrlLen, truncContents, truncDiscarded, hasCtrl, hd, h1]
      · have h1 : MAX_PAYLOAD_AND_CONTROL_LEN < data.len := by omega
        have h2 : MAX_PAYLOAD_AND_CONTROL_LEN ≤ data.len := by omega
        simp [with_data_options, ctrlLen, truncContents, truncDiscarded, hasCtrl, hd, h1, h2,
          Pl.slice]
  | some c =>
      cases c with
      | RST =>
          by_cases hd : data.len - MAX_PAYLOAD_AND_CONTROL_LEN = 0
          · have h1 : ¬ MAX_PAYLOAD_AND_CONTROL_LEN < data.len := by omega
            simp [with_data_options, ctrlLen, truncContents, truncDiscarded, hasCtrl, hd, h1]
          · have h1 : MAX_PAYLOAD_AND_CONTROL_LEN < data.len := by omega
            have h2 : MAX_PAYLOAD_AND_CONTROL_LEN ≤ data.len := by omega
            simp [with_data_options, ctrlLen, truncContents, truncDiscarded, hasCtrl, hd, h1, h2,
              Pl.slice]
      | SYN =>
          by_cases hd : data.len - (MAX_PAYLOAD_AND_CONTROL_LEN - 1) = 0
          · have h1 : ¬ MAX_PAYLOAD_AND_CONTROL_LEN - 1 < data.len := by omega
            simp [with_data_options, ctrlLen, truncContents, truncDiscarded, hasCtrl, hd, h1]
          · have h1 : MAX_PAYLOAD_AND_CONTROL_LEN - 1 < data.len := by omega
            have h2 : MAX_PAYLOAD_AND_CONTROL_LEN - 1 ≤ data.len := by omega
            simp [with_data_options, ctrlLen, truncContents, truncDiscarded, hasCtrl, hd, h1, h2,
              Pl.slice]
      | FIN =>
          by_cases hd : data.len - (MAX_PAYLOAD_AND_CONTROL_LEN - 1) = 0
          · have h1 : ¬ MAX_PAYLOAD_AND_CONTROL_LEN - 1 < data.len := by omega
            simp [with_data_options, ctrlLen, truncContents, truncDiscarded, hasCtrl, hd, h1]
          · have h1 : MAX_PAYLOAD_AND_CONTROL_LEN - 1 < data.len := by omega
            have h2 : MAX_PAYLOAD_AND_CONTROL_LEN ≤ data.len := by
              have h3 : (0 : Nat) < MAX_PAYLOAD_AND_CONTROL_LEN := by decide
              omega
            simp [with_data_options, ctrlLen, truncContents, truncDiscarded, hasCtrl, hd, h1, h2,
              Pl.slice]

/-- C4: the truncation rule of `with_data_options`, together with the spec's
two boundary scenarios: at `data_len = MAX` a SYN is kept with data length
`MAX - 1` and `discarded = 1`, while a FIN is dropped with data length `MAX`
and `discarded = 1`. -/
theorem with_data_options_truncation_rule :
    (∀ (seq : Nat) (ack : Option Nat) (control : Option Control) (wnd : Nat)
        (data : Pl) (options : Options),
      with_data_options seq ack control wnd data options =
        some (⟨seq, ack, wnd, truncContents control data, options⟩,
          truncDiscarded control data)) ∧
      with_data_options 0 none (some Control.SYN) 0 ⟨0, 2147483648⟩ Options.default =
        some (⟨0, none, 0, ⟨some Control.SYN, ⟨0, 2147483647⟩⟩, Options.default⟩, 1) ∧
      with_data_options 0 none (some Control.FIN) 0 ⟨0, 2147483648⟩ Options.default =
        some (⟨0, none, 0, ⟨none, ⟨0, 2147483648⟩⟩, Options.default⟩, 1) :=
  ⟨with_data_options_eq, by decide, by decide⟩

/-- C3 counterexample: with no control and `data_len = MAX`, the returned
segment's sequence-space length is exactly `MAX_PAYLOAD_AND_CONTROL_LEN`
(not at most `MAX - 1`, as claimed; the source's own `segment_truncate`
tests record this output), and for a zero-length segment
`seq.before(seq + len)` is false, so neither conjunct of the claim holds as
stated. -/
theorem with_data_options_len_reaches_max :
    with_data_options 0 none none 0 ⟨0, 2147483648⟩ Options.default =
        some (⟨0, none, 0, ⟨none, ⟨0, 2147483648⟩⟩, Options.default⟩, 0) ∧
      Contents.len ⟨none, ⟨0, 2147483648⟩⟩ = MAX_PAYLOAD_AND_CONTROL_LEN ∧
      seqBefore 0 (seqAdd 0 (Contents.len ⟨none, ⟨0, 0⟩⟩)) = false := by
  refine ⟨by decide, by decide, by decide⟩

/-- C3 (amended): every segment built by `with_data_options` has
sequence-space length at most `MAX_PAYLOAD_AND_CONTROL_LEN = 2^31`
(the bound is attained, e.g. by an RST or control-free segment with `2^31`
data bytes), and whenever that length is nonzero,
`seq.before(seq + len)` holds — the segment never wraps the sequence space
internally. -/
theorem with_data_options_no_wraparound (seq : Nat) (ack : Option Nat)
    (control : Option Control) (wnd : Nat) (data : Pl) (options : Options)
    (hseq : seq < SEQ_MOD) :
    ∃ seg disc, with_data_options seq ack control wnd data options = some (seg, disc) ∧
      seg.contents.len ≤ MAX_PAYLOAD_AND_CONTROL_LEN ∧
      (0 < seg.contents.len → seqBefore seq (seqAdd seq seg.contents.len) = true) := by
  have hM : MAX_PAYLOAD_AND_CONTROL_LEN = 2147483648 := rfl
  have hlen : Contents.len (truncContents control data) ≤ MAX_PAYLOAD_AND_CONTROL_LEN := by
    unfold truncContents truncDiscarded
    cases control with
    | none =>
        simp only [hasCtrl, hM]
        split_ifs with h1 h2
        · rw [Contents_len_none]
          omega
        · exact h2.elim
        · rw [Contents_len_none]
          simp only [Pl.len]
          omega
    | some c =>
        cases c with
        | SYN =>
            simp only [hasCtrl, hM]
            split_ifs with h1 h2
            · rw [Contents_len_syn]
              omega
            · exact absurd h2 (by simp)
            · rw [Contents_len_syn]
              simp only [Pl.len]
              omega
        | FIN =>
            simp only [hasCtrl, hM]
            split_ifs with h1
            · rw [Contents_len_fin]
              omega
            · rw [Contents_len_none]
              simp only [Pl.len]
              omega
        | RST =>
            simp only [hasCtrl, hM]
            split_ifs with h1 h2
            · rw [Contents_len_rst]
              omega
            · exact absurd h2 (by simp)
            · rw [Contents_len_rst]
              simp only [Pl.len]
              omega
  refine ⟨⟨seq, ack, wnd, truncContents control data, options⟩, truncDiscarded control data,
    with_data_options_eq seq ack control wnd data options, hlen, ?_⟩
  show 0 < Contents.len (truncContents control data) →
    seqBefore seq (seqAdd seq (Contents.len (truncContents control data))) = true
  intro hpos
  rw [seqBefore_iff, wdist_seqAdd_right, wdist_self seq hseq]
  generalize Contents.len (truncContents control data) = L at hpos hlen
  simp only [MAX_PAYLOAD_AND_CONTROL_LEN, SEQ_MOD, SEQ_HALF] at hpos hlen ⊢
  omega

/-- Witness for C3 at a concrete input (SYN, one data byte). -/
theorem with_data_options_no_wraparound_witness :
    (1 : Nat) < SEQ_MOD ∧
      (∃ seg disc,
        with_data_options 1 none (some Control.SYN) 0 ⟨0, 1⟩ Options.default =
            some (seg, disc) ∧
          seg.contents.len ≤ MAX_PAYLOAD_AND_CONTROL_LEN ∧
          (0 < seg.contents.len → seqBefore 1 (seqAdd 1 seg.contents.len) = true)) :=
  ⟨by decide,
    with_data_options_no_wraparound 1 none (some Control.SYN) 0 ⟨0, 1⟩ Options.default
      (by decide)⟩

/-- C9: `Contents::len` is SEG.LEN per RFC 793 — the data length plus one
for SYN or FIN, and exactly the data length for RST or no control. -/
theorem contents_len_seg_len (p : Pl) :
    Contents.len ⟨some Control.SYN, p⟩ = p.len + 1 ∧
      Contents.len ⟨some Control.FIN, p⟩ = p.len + 1 ∧
      Contents.len ⟨some Control.RST, p⟩ = p.len ∧
      Contents.len ⟨none, p⟩ = p.len :=
  ⟨Contents_len_syn p, Contents_len_fin p, Contents_len_rst p, Contents_len_none p⟩

/-! ### Options codec (spec §4.1) -/

/-- C6: the options codec round-trips exactly for a window scale at most 14
and any positive 16-bit MSS; a raw window-scale entry above 14 decodes to
exactly 14 (and one at most 14 decodes to itself); an MSS entry of zero
leaves `mss` absent; the last occurrence of an option kind wins while the
other field is untouched.  Decoding is total by construction
(`Options.from_iter` is a total function). -/
theorem options_codec_roundtrip_and_decode :
    (∀ o : Options, (∀ m, o.mss = some m → 0 < m) →
      (∀ v, o.window_scale = some v → v ≤ WindowScaleMAX) →
      Options.from_iter o.iter = o) ∧
      (∀ l v, WindowScaleMAX < v →
        (Options.from_iter (l ++ [TcpOption.windowScale v])).window_scale =
          some WindowScaleMAX) ∧
      (∀ l v, v ≤ WindowScaleMAX →
        (Options.from_iter (l ++ [TcpOption.windowScale v])).window_scale = some v) ∧
      (∀ l, (Options.from_iter (l ++ [TcpOption.mss 0])).mss = none) ∧
      (∀ l v, 0 < v → (Options.from_iter (l ++ [TcpOption.mss v])).mss = some v) ∧
      (∀ l v, (Options.from_iter (l ++ [TcpOption.mss v])).window_scale =
        (Options.from_iter l).window_scale) ∧
      (∀ l v, (Options.from_iter (l ++ [TcpOption.windowScale v])).mss =
        (Options.from_iter l).mss) := by
  refine ⟨?_, ?_, ?_, ?_, ?_, ?_, ?_⟩
  · intro o hm hw
    obtain ⟨om, ow⟩ := o
    cases om with
    | none =>
        cases ow with
        | none => rfl
        | some v =>
            have hv : v ≤ WindowScaleMAX := hw v rfl
            simp [Options.iter, Options.from_iter, Options.step, Options.default, hv]
    | some m =>
        have hm0 : 0 < m := hm m rfl
        cases ow with
        | none =>
            simp [Options.iter, Options.from_iter, Options.step, Options.default]
            omega
        | some v =>
            have hv : v ≤ WindowScaleMAX := hw v rfl
            simp [Options.iter, Options.from_iter, Options.step, Options.default, hv]
            omega
  · intro l v hv
    simp [Options.from_iter, List.foldl_append, Options.step]
    omega
  · intro l v hv
    simp [Options.from_iter, List.foldl_append, Options.step, hv]
  · intro l
    simp [Options.from_iter, List.foldl_append, Options.step]
  · intro l v hv
    simp [Options.from_iter, List.foldl_append, Options.step]
    omega
  · intro l v
    simp [Options.from_iter, List.foldl_append, Options.step]
  · intro l v
    simp [Options.from_iter, List.foldl_append, Options.step]

/-- Witness for C6 at concrete inputs: `{mss = 536, window_scale = 7}`
round-trips, and a raw shift of 20 decodes to 14. -/
theorem options_codec_roundtrip_and_decode_witness :
    Options.from_iter (Options.iter ⟨some 536, some 7⟩) = ⟨some 536, some 7⟩ ∧
      (Options.from_iter ([TcpOption.mss 536] ++ [TcpOption.windowScale 20])).window_scale =
        some WindowScaleMAX :=
  ⟨options_codec_roundtrip_and_decode.1 ⟨some 536, some 7⟩
      (fun m h => by injection h with h2; omega)
      (fun v h => by injection h with h2; rw [← h2]; decide),
    options_codec_roundtrip_and_decode.2.1 [TcpOption.mss 536] 20 (by decide)⟩

/-! ### Wire decode adapter (spec §4.5) -/

/-- C7: the wire decode adapter fails with `MalformedFlags` iff more than
one of SYN, FIN, RST is set; otherwise it succeeds, mapping the single set
flag (if any) to the corresponding `Control` variant, decoding the options
via the options codec, and carrying the parsed fields through. -/
theorem try_from_wire_malformed_iff (w : TcpSegmentWire)
    (hbody : w.body.len < MAX_PAYLOAD_AND_CONTROL_LEN) :
    (try_from_wire w = DecodeResult.malformedFlags w.syn w.fin w.rst ↔
      1 < (if w.syn then 1 else 0) + (if w.fin then 1 else 0) + (if w.rst then 1 else 0)) ∧
      ((if w.syn then 1 else 0) + (if w.fin then 1 else 0) + (if w.rst then 1 else 0) ≤ 1 →
        try_from_wire w = DecodeResult.ok
          ⟨w.seq_num, w.ack_num, w.window_size,
            ⟨if w.syn then some Control.SYN
              else if w.fin then some Control.FIN
              else if w.rst then some Control.RST
              else none, w.body⟩,
            Options.from_iter w.options_list⟩) := by
  have htrunc : ∀ c : Option Control, truncDiscarded c w.body = 0 := by
    intro c
    have hc : hasCtrl c ≤ 1 := by
      cases c with
      | none => decide
      | some cc => cases cc <;> decide
    unfold truncDiscarded
    omega
  have htrunc2 : ∀ c : Option Control, truncContents c w.body = ⟨c, w.body⟩ := by
    intro c
    unfold truncContents
    rw [if_pos (htrunc c)]
  cases hs : w.syn <;> cases hf : w.fin <;> cases hr : w.rst <;>
    simp [try_from_wire, hs, hf, hr, with_data_options_eq, htrunc, htrunc2]

/-- Witness for C7 at a concrete parsed wire segment with only SYN set. -/
theorem try_from_wire_malformed_iff_witness :
    (try_from_wire ⟨true, false, false, 100, some 5, 1024, [TcpOption.mss 536], ⟨0, 10⟩⟩ =
        DecodeResult.malformedFlags true false false ↔
      1 < (if true then 1 else 0) + (if false then 1 else 0) + (if false then 1 else 0)) ∧
      ((if true then 1 else 0) + (if false then 1 else 0) + (if false then 1 else 0) ≤ 1 →
        try_from_wire ⟨true, false, false, 100, some 5, 1024, [TcpOption.mss 536], ⟨0, 10⟩⟩ =
          DecodeResult.ok
            ⟨100, some 5, 1024,
              ⟨if true then some Control.SYN
                else if false then some Control.FIN
                else if false then some Control.RST
                else none, ⟨0, 10⟩⟩,
              Options.from_iter [TcpOption.mss 536]⟩) :=
  try_from_wire_malformed_iff ⟨true, false, false, 100, some 5, 1024, [TcpOption.mss 536], ⟨0, 10⟩⟩
    (by decide)

end Netstack3
